import Mathlib

/-!
Shallow embedding of the payment-channel core of hopr-core-polkadot
(src/channel/index.ts, src/index.ts, src/srml_types SignedTicket) and
proofs about the claims of the specification.

Byte strings are modelled as `List Nat`, balances as `Int` (the BN.js
arithmetic used by the code supports negative numbers, so `Int` is the
faithful carrier), hashes and database keys as `Nat` (a 32-byte hash
read as a number; the byte-lexicographic order on equal-length hashes
coincides with the numeric order).
-/

set_option autoImplicit false

/-- The on-chain channel state enum of srml_types (channel/index.ts reads
the variants Funded, Active and PendingSettlement, each of which carries
`balance_a` and `balance`; every other variant is treated as not carrying
balances). The extra payloads (moments, signatures) play no role in the
claims and are omitted. -/
inductive ChannelEnum
  | uninitialized : ChannelEnum
  | funded (balance_a balance : Int) : ChannelEnum
  | active (balance_a balance : Int) : ChannelEnum
  | pendingSettlement (balance_a balance : Int) : ChannelEnum
deriving DecidableEq

/-- Test of channel.type against the Uninitialized tag, as done by
`channel.type != 'Uninitialized'` in Channel.isOpen. -/
def ChannelEnum.isUninitialized : ChannelEnum → Bool
  | .uninitialized => true
  | _ => false

/-- `Channel.balance_a` (channel/index.ts lines 147-160): reads the
balance_a field of a Funded, Active or PendingSettlement channel and
throws on any other variant. -/
def Channel.balance_a : ChannelEnum → Except String Int
  | .funded a _ => .ok a
  | .active a _ => .ok a
  | .pendingSettlement a _ => .ok a
  | .uninitialized => .error "Invalid state."

/-- `Channel.balance` (channel/index.ts lines 162-175): reads the total
balance field of a Funded, Active or PendingSettlement channel and throws
on any other variant. -/
def Channel.balance : ChannelEnum → Except String Int
  | .funded _ b => .ok b
  | .active _ b => .ok b
  | .pendingSettlement _ b => .ok b
  | .uninitialized => .error "Invalid state."

/-- `Channel.currentBalance` (channel/index.ts lines 177-190): if the
local party is party A it returns `balance_a`, otherwise it returns
`balance.sub(balance_a)`. The result of `utils.isPartyA` is passed in as
a boolean. -/
def Channel.currentBalance (isPartyA : Bool) (channel : ChannelEnum) : Except String Int :=
  if isPartyA then Channel.balance_a channel
  else
    match Channel.balance channel, Channel.balance_a channel with
    | .ok b, .ok a => .ok (b - a)
    | .error e, _ => .error e
    | .ok _, .error e => .error e

/-- Result of `db.get` on the local levelup store: a stored value, a
not-found rejection, or any other failure. -/
inductive DbGetResult
  | found (value : List Nat) : DbGetResult
  | notFound : DbGetResult
  | failure (msg : String) : DbGetResult
deriving DecidableEq

/-- The on-chain half of `Channel.isOpen` (channel/index.ts lines
273-277): the ledger query promise is mapped with
`channel => channel != null && channel.type != 'Uninitialized'` and any
rejection is turned into `false`. -/
def onChainOf : Except String (Option ChannelEnum) → Bool
  | .error _ => false
  | .ok none => false
  | .ok (some channel) => !channel.isUninitialized

/-- The off-chain half of `Channel.isOpen` (channel/index.ts lines
278-288): a successful `db.get` yields `true`, a not-found rejection
yields `false`, and any other rejection is rethrown. -/
def offChainOf : DbGetResult → Except String Bool
  | .found _ => .ok true
  | .notFound => .ok false
  | .failure msg => .error msg

/-- `Channel.isOpen` (channel/index.ts lines 272-300): cross-checks the
ledger query against the local store; on agreement it returns the shared
boolean, on disagreement it throws an error naming the side that holds
the channel. -/
def Channel.isOpen (ledger : Except String (Option ChannelEnum)) (dbRes : DbGetResult) :
    Except String Bool :=
  match offChainOf dbRes with
  | .error e => .error e
  | .ok offChain =>
    let onChain := onChainOf ledger
    if onChain != offChain then
      if !onChain && offChain then .error "Channel exists off-chain but not on-chain."
      else .error "Channel exists on-chain but not off-chain."
    else .ok (onChain && offChain)

/-- `Channel.testAndSetNonce` (channel/index.ts lines 397-413): derives a
nonce key from the signature by hashing (blake2b with the Nonce key,
passed in here as the function `hash`), then performs `db.get` on that
key: a hit throws the replay error, a not-found rejection is swallowed,
and — exactly as in the source — no `db.put` follows, so the store is
returned unchanged in both branches. The result pairs the outcome with
the nonce store after the call (the set of present nonce keys). -/
def Channel.testAndSetNonce (hash : List Nat → Nat) (db : List Nat) (signature : List Nat) :
    Except String Unit × List Nat :=
  let nonce := hash signature
  if nonce ∈ db then (.error "Nonces must not be used twice.", db)
  else (.ok (), db)

/-- The nonce-key derivation used in the proofs below: a concrete stand-in
for `blake2b(signature, NONCE_HASH_KEY, 32)`, reading the first byte. Any
function works for the claims; only determinism matters. -/
def nonceHash (signature : List Nat) : Nat := signature.headD 0

/-- `Channel.getPreviousChallenges` (channel/index.ts lines 234-265): range
scans the challenge entries of the channel with
`gt: Challenge(channelId, 0x00…00)` and `lt: Challenge(channelId, 0x00…00)`
(both bounds are the all-zero hash in the source), XORs each visited
challenge key with the stored key half, XORs the results together, and
resolves empty when nothing was visited. Challenge keys and key halves are
modelled as `Nat`; `none` is the empty resolution. -/
def Channel.getPreviousChallenges (entries : List (Nat × Nat)) : Option Nat :=
  let lowerBound : Nat := 0
  let upperBound : Nat := 0
  let selected := entries.filter (fun e => decide (lowerBound < e.1 ∧ e.1 < upperBound))
  let pubKeys := selected.map (fun e => Nat.xor e.1 e.2)
  match pubKeys with
  | [] => none
  | x :: rest => some (rest.foldl Nat.xor x)

/-- `Channel.getAll` (channel/index.ts lines 358-384): streams every
locally stored channel record, applies `onData` to each, collects the
results, and hands the collection to `onEnd`. -/
def Channel.getAll {T R : Type} (entries : List ChannelEnum) (onData : ChannelEnum → T)
    (onEnd : List T → R) : R :=
  onEnd (entries.map onData)

/-- `Channel.closeChannels` (channel/index.ts lines 385-395): calls
`Channel.getAll` with `onData` equal to
`(channel) => { channel.initiateSettlement() }` — the braces mean the
settlement promise is started but not returned, so its outcome is
discarded — and `onEnd` awaiting the collected (already resolved)
promises and producing `Balance 0`. `initiateSettlement` is passed in as
the per-channel settlement outcome. -/
def Channel.closeChannels (initiateSettlement : ChannelEnum → Except String Unit)
    (entries : List ChannelEnum) : Except String Int :=
  Channel.getAll entries
    (fun channel => (fun _ => ()) (initiateSettlement channel))
    (fun _promises => Except.ok 0)

/-- Events observable during one run of `Channel.initiateSettlement`
(channel/index.ts lines 213-232). -/
inductive SettlerEvent
  | onceClosedResolved : SettlerEvent
  | withdrawInvoked : SettlerEvent
  | initInvoked : SettlerEvent
deriving DecidableEq

/-- All interleavings of two sequential event strands, the semantics of
`Promise.all` over two independently progressing promise chains. -/
def interleave2 {α : Type} : List α → List α → List (List α)
  | [], ys => [ys]
  | x :: xs, [] => [x :: xs]
  | x :: xs, y :: ys =>
    (interleave2 xs (y :: ys)).map (fun t => x :: t) ++
      (interleave2 (x :: xs) ys).map (fun t => y :: t)

/-- The first strand of the `Promise.all` in `Channel.initiateSettlement`:
`channelSettler.onceClosed().then(() => channelSettler.withdraw())` —
withdraw runs strictly after onceClosed resolves. -/
def settleThenWithdrawStrand : List SettlerEvent :=
  [.onceClosedResolved, .withdrawInvoked]

/-- The second strand of the `Promise.all` in `Channel.initiateSettlement`:
`channelSettler.init()`. -/
def initStrand : List SettlerEvent := [.initInvoked]

/-- Every event order one run of `Channel.initiateSettlement` can exhibit:
the interleavings of its two promise strands. -/
def initiateSettlementTraces : List (List SettlerEvent) :=
  interleave2 settleThenWithdrawStrand initStrand

/-- `occursBefore a b tr` holds when no occurrence of `b` in `tr` comes
before the first occurrence of `a` (so any `b` is preceded by an `a`). -/
def occursBefore {α : Type} [DecidableEq α] (a b : α) : List α → Bool
  | [] => true
  | x :: rest => if x = b then false else if x = a then true else occursBefore a b rest

/-- Phase of a `ChannelSettler` instance: before closure the settlement
window is still running, after closure withdrawal is permitted. -/
inductive SettlerState
  | pending : SettlerState
  | closed : SettlerState
deriving DecidableEq

/-- Modelled from the spec: `ChannelSettler.withdraw` lives in
src/channel/settle.ts, which is not part of the sources here; per the
specification a withdrawal attempted before `once_closed` resolves is a
precondition violation faulting with NotYetClosed, and after closure the
withdrawal is performed. -/
def ChannelSettler.withdraw : SettlerState → Except String Unit
  | .pending => .error "NotYetClosed"
  | .closed => .ok ()

/-- `HoprPolkadot.nonce` (src/index.ts lines 462-476): if the cached nonce
is present, resolve with it and post-increment the cache; otherwise fetch
the on-chain account nonce (`fetch`), seed the cache and post-increment.
The result pairs the resolved value with the cache after the read. -/
def HoprPolkadot.nonce (fetch : Except String Nat) : Option Nat → Except String Nat × Option Nat
  | some n => (.ok n, some (n + 1))
  | none =>
    match fetch with
    | .error e => (.error e, none)
    | .ok v => (.ok v, some (v + 1))

/-- The values produced by `k` consecutive reads of `HoprPolkadot.nonce`
starting from cache state `s`. -/
def nonceValues (fetch : Except String Nat) (s : Option Nat) : Nat → List (Except String Nat)
  | 0 => []
  | k + 1 =>
    let r := HoprPolkadot.nonce fetch s
    r.1 :: nonceValues fetch r.2 k

/-- Modelled from the spec: the Ticket type of srml_types (its file is
not among the sources here; only `SignedTicket` is). Per the
specification a ticket serializes to a byte string of variable natural
length bounded by the canonical ticket width, and decoding reads the
ticket back from a buffer while tolerating right zero-padding losslessly.
The model keeps the field content as a byte list behind a one-byte length
header, which makes the encoding self-delimiting exactly as a
SCALE-style struct decoder is: the decoder reads the natural length and
ignores trailing padding. -/
structure Ticket where
  content : List Nat
deriving DecidableEq

/-- Modelled from the spec: the canonical serialization of a `Ticket`, a
length header followed by the field content. -/
def Ticket.toU8a (t : Ticket) : List Nat := t.content.length :: t.content

/-- Modelled from the spec: the `Ticket` decoder, reading the natural
length from the header and ignoring any bytes past the content, so right
zero-padding is tolerated losslessly. -/
def Ticket.decode (bytes : List Nat) : Ticket :=
  ⟨(bytes.drop 1).take (bytes.headD 0)⟩

/-- The struct branch of the `SignedTicket` constructor (src srml_types
signedTicket lines 250-264): with `ticketBytes = struct.ticket.toU8a()`,
an exact-width ticket is concatenated after the signature, a shorter one
is zero-padded on the right up to `Ticket.SIZE` (`ticketSize` here), and
a longer one throws. -/
def SignedTicket.construct (ticketSize : Nat) (sig ticketBytes : List Nat) :
    Except String (List Nat) :=
  if ticketBytes.length = ticketSize then .ok (sig ++ ticketBytes)
  else if ticketBytes.length < ticketSize then
    .ok (sig ++ ticketBytes ++ List.replicate (ticketSize - ticketBytes.length) 0)
  else
    .error ("Ticket is too big by " ++ toString (ticketBytes.length - ticketSize) ++ " elements.")

/-- The `ticket` getter of `SignedTicket` (src srml_types signedTicket
lines 270-279): `subarray(Signature.SIZE, Signature.SIZE + Ticket.SIZE)`
of the underlying buffer, handed to the Ticket decoder. -/
def SignedTicket.ticketSlice (sigSize ticketSize : Nat) (bytes : List Nat) : List Nat :=
  (bytes.drop sigSize).take ticketSize

/-- The `ticket` getter of `SignedTicket` composed with the Ticket
decoder: the ticket read back from a constructed `SignedTicket`. -/
def SignedTicket.getTicket (sigSize ticketSize : Nat) (bytes : List Nat) : Ticket :=
  Ticket.decode (SignedTicket.ticketSlice sigSize ticketSize bytes)

/-- Claim C1. The claim states that the second of two calls of
`testAndSetNonce` with the same signature faults with the replay error
because the first call atomically inserts the nonce. The code only
performs the `db.get` check and never writes the nonce key back to the
store, so starting from an empty nonce store two successive calls with
the same signature both succeed: the code contradicts the claim (and the
intent evidenced by the method name and its own error message). -/
theorem testAndSetNonce_second_call_succeeds :
    (Channel.testAndSetNonce nonceHash [] [5]).1 = .ok () ∧
    (Channel.testAndSetNonce nonceHash (Channel.testAndSetNonce nonceHash [] [5]).2 [5]).1 =
      .ok () :=
  ⟨rfl, rfl⟩

/-- Claim C3. The claim states that `closeChannels` collects per-channel
settlement failures into an aggregate failure list. In the code the
`onData` callback starts `initiateSettlement` but does not return its
promise, so the collected promises are already-resolved unit promises and
every settlement outcome is discarded: with a single stored channel whose
settlement faults, `closeChannels` still resolves with `Balance 0` and no
failure is reported. -/
theorem closeChannels_discards_failures :
    Channel.closeChannels (fun _ => .error "settlement failed") [ChannelEnum.active 1 2] =
      .ok 0 :=
  rfl

/-- Claim C4. The claim states that `getPreviousChallenges` XOR-combines
all recorded key halves of the channel. The range scan in the code uses
the all-zero hash for BOTH the strict lower and the strict upper bound
(compare `Channel.getAll`, which uses the all-0x00 and all-0xff hashes),
so the scan is empty and the function resolves empty no matter what is on
record: with one challenge entry (5, 7) it returns `none` instead of the
combination `some (Nat.xor 5 7)`. -/
theorem getPreviousChallenges_scan_is_empty :
    Channel.getPreviousChallenges [(5, 7)] = none ∧
    ∀ entries, Channel.getPreviousChallenges entries = none := by
  refine ⟨rfl, fun entries => ?_⟩
  unfold Channel.getPreviousChallenges
  have hfilter : entries.filter (fun e => decide (0 < e.1 ∧ e.1 < 0)) = [] :=
    List.filter_eq_nil_iff.mpr (fun a _ => by simp)
  simp [hfilter]

/-- Claim C8. In `Channel.initiateSettlement` the withdraw call is chained
strictly after `onceClosed` resolves, so in every interleaving of the two
promise strands of its `Promise.all` the withdraw event is preceded by
the closure event; and (modelled from the spec, settle.ts being absent
from the sources) a withdraw attempted before closure faults with
NotYetClosed while a withdraw after closure is performed. -/
theorem initiateSettlement_withdraw_after_close :
    initiateSettlementTraces.all
        (occursBefore SettlerEvent.onceClosedResolved SettlerEvent.withdrawInvoked) = true ∧
    ChannelSettler.withdraw .pending = .error "NotYetClosed" ∧
    ChannelSettler.withdraw .closed = .ok () := by
  refine ⟨?_, rfl, rfl⟩
  simp [initiateSettlementTraces, settleThenWithdrawStrand, initStrand, interleave2,
    occursBefore]

/-- Claim C9. When the ledger query rejects, `Channel.isOpen` maps the
rejection to `false` (channel treated as not existing on-chain); with no
local record it returns `false`, and with a local record present it
throws the exists-off-chain-but-not-on-chain divergence error rather
than propagating the ledger error. -/
theorem isOpen_ledger_rejection :
    ∀ (e : String) (v : List Nat),
      Channel.isOpen (.error e) .notFound = .ok false ∧
      Channel.isOpen (.error e) (.found v) =
        .error "Channel exists off-chain but not on-chain." := by
  intro e v
  exact ⟨rfl, rfl⟩

/-- Helper: reading the nonce `k` times from an initialized cache state
`some n` yields the values `n, n + 1, …, n + k - 1` in order. -/
theorem nonceValues_get (fetch : Except String Nat) :
    ∀ (k n i : Nat), i < k →
      (nonceValues fetch (some n) k).get? i = some (.ok (n + i)) := by
  intro k
  induction k with
  | zero => intro n i h; exact absurd h (Nat.not_lt_zero i)
  | succ k ih =>
    intro n i h
    cases i with
    | zero => simp [nonceValues, HoprPolkadot.nonce]
    | succ i =>
      have hrec := ih (n + 1) i (Nat.lt_of_succ_lt_succ h)
      have harith : n + 1 + i = n + (i + 1) := by omega
      simpa [nonceValues, HoprPolkadot.nonce, harith] using hrec

/-- Claim C10. The first successful read of `HoprPolkadot.nonce` seeds the
cache with the fetched account nonce and returns it while advancing the
cache by one; every subsequent read from an initialized cache returns
exactly the previous value plus one, so the values handed out within one
process are consecutive, strictly increasing and never repeat. -/
theorem nonce_cache_increments :
    ∀ (fetch : Except String Nat) (v k i : Nat),
      HoprPolkadot.nonce (.ok v) none = (.ok v, some (v + 1)) ∧
      (i < k → (nonceValues fetch (some v) k).get? i = some (.ok (v + i))) := by
  intro fetch v k i
  exact ⟨rfl, fun h => nonceValues_get fetch k v i h⟩

/-- Witness for C10 at `fetch = .ok 5`, `v = 5`, `k = 3`, `i = 1`. -/
theorem nonce_cache_increments_witness :
    HoprPolkadot.nonce (.ok 5) none = (.ok 5, some 6) ∧
    (nonceValues (.ok 5) (some 5) 3).get? 1 = some (.ok 6) :=
  ⟨(nonce_cache_increments (.ok 5) 5 3 1).1,
   (nonce_cache_increments (.ok 5) 5 3 1).2 (by decide)⟩

/-- Claim C2. `Channel.isOpen` returns `true` exactly when the ledger
query and the local store both hold the channel, returns `false` exactly
when both agree it is absent, and on any mismatch throws the divergence
error naming the side that holds the channel instead of returning a
boolean. -/
theorem isOpen_cross_checks :
    ∀ (ledger : Except String (Option ChannelEnum)) (dbRes : DbGetResult),
      (Channel.isOpen ledger dbRes = .ok true ↔
        onChainOf ledger = true ∧ offChainOf dbRes = .ok true) ∧
      (Channel.isOpen ledger dbRes = .ok false ↔
        onChainOf ledger = false ∧ offChainOf dbRes = .ok false) ∧
      (onChainOf ledger = false ∧ offChainOf dbRes = .ok true →
        Channel.isOpen ledger dbRes = .error "Channel exists off-chain but not on-chain.") ∧
      (onChainOf ledger = true ∧ offChainOf dbRes = .ok false →
        Channel.isOpen ledger dbRes = .error "Channel exists on-chain but not off-chain.") := by
  intro ledger dbRes
  unfold Channel.isOpen
  cases hoff : offChainOf dbRes with
  | error e => cases hon : onChainOf ledger <;> simp
  | ok offChain => cases offChain <;> cases hon : onChainOf ledger <;> simp [hon]

/-- Witness for C2: a channel present on both sides is reported open. -/
theorem isOpen_cross_checks_witness :
    Channel.isOpen (.ok (some (ChannelEnum.active 1 2))) (.found []) = .ok true :=
  (isOpen_cross_checks (.ok (some (ChannelEnum.active 1 2))) (.found [])).1.mpr ⟨rfl, rfl⟩

/-- Claim C7. For every channel variant carrying balances with
`balance_a ≤ balance`, `currentBalance` returns `balance_a` when the
local party is party A and `balance - balance_a` otherwise, and the
subtraction never underflows. -/
theorem currentBalance_party_split :
    ∀ (a b : Int) (channel : ChannelEnum),
      (channel = .funded a b ∨ channel = .active a b ∨ channel = .pendingSettlement a b) →
      a ≤ b →
      Channel.currentBalance true channel = .ok a ∧
      Channel.currentBalance false channel = .ok (b - a) ∧
      0 ≤ b - a := by
  intro a b channel hvariant hle
  rcases hvariant with h | h | h <;> subst h <;> exact ⟨rfl, rfl, by omega⟩

/-- Witness for C7 at the Funded variant with balances 1 and 3. -/
theorem currentBalance_party_split_witness :
    Channel.currentBalance true (.funded 1 3) = .ok 1 ∧
    Channel.currentBalance false (.funded 1 3) = .ok (3 - 1) ∧
    (0 : Int) ≤ 3 - 1 :=
  currentBalance_party_split 1 3 (.funded 1 3) (Or.inl rfl) (by decide)

/-- Claim C5. For every ticket whose encoding is at most the canonical
ticket width, constructing a `SignedTicket` from a signature and the
ticket and then reading the ticket field yields the original ticket,
also when the constructor added right zero-padding. -/
theorem signedTicket_roundtrip :
    ∀ (sigSize ticketSize : Nat) (sig : List Nat) (t : Ticket),
      sig.length = sigSize →
      (Ticket.toU8a t).length ≤ ticketSize →
      (SignedTicket.construct ticketSize sig (Ticket.toU8a t)).map
          (SignedTicket.getTicket sigSize ticketSize) = .ok t := by
  intro sigSize ticketSize sig t hsig hlen
  subst hsig
  rcases t with ⟨content⟩
  unfold SignedTicket.construct
  by_cases heq : (Ticket.toU8a ⟨content⟩).length = ticketSize
  · rw [if_pos heq]
    show Except.ok
        (SignedTicket.getTicket sig.length ticketSize (sig ++ Ticket.toU8a ⟨content⟩)) =
      Except.ok (⟨content⟩ : Ticket)
    congr 1
    unfold SignedTicket.getTicket SignedTicket.ticketSlice
    rw [List.drop_left, ← heq, List.take_length]
    unfold Ticket.decode Ticket.toU8a
    simp
  · have hlt : (Ticket.toU8a ⟨content⟩).length < ticketSize := lt_of_le_of_ne hlen heq
    rw [if_neg heq, if_pos hlt]
    show Except.ok
        (SignedTicket.getTicket sig.length ticketSize
          (sig ++ Ticket.toU8a ⟨content⟩ ++
            List.replicate (ticketSize - (Ticket.toU8a ⟨content⟩).length) 0)) =
      Except.ok (⟨content⟩ : Ticket)
    congr 1
    unfold SignedTicket.getTicket SignedTicket.ticketSlice
    rw [List.append_assoc, List.drop_left]
    have hfull :
        (Ticket.toU8a ⟨content⟩ ++
            List.replicate (ticketSize - (Ticket.toU8a ⟨content⟩).length) 0).length =
          ticketSize := by
      simp only [List.length_append, List.length_replicate]
      omega
    rw [List.take_of_length_le (le_of_eq hfull)]
    unfold Ticket.toU8a
    rw [List.cons_append]
    unfold Ticket.decode
    simp [List.take_left]

/-- Witness for C5 with a two-byte signature and a ticket whose encoding
is one byte short of the canonical width, so padding is added. -/
theorem signedTicket_roundtrip_witness :
    (SignedTicket.construct 4 [9, 9] (Ticket.toU8a ⟨[1, 2]⟩)).map
        (SignedTicket.getTicket 2 4) = .ok ⟨[1, 2]⟩ :=
  signedTicket_roundtrip 2 4 [9, 9] ⟨[1, 2]⟩ rfl (by decide)

/-- Claim C6. Constructing a `SignedTicket` from ticket bytes longer than
the canonical ticket width always faults with the too-big error, and
every successful construction yields a buffer of total size exactly
signature width plus ticket width (shorter tickets being zero-padded on
the right). -/
theorem signedTicket_size_and_too_large :
    ∀ (sigSize ticketSize : Nat) (sig ticketBytes : List Nat),
      sig.length = sigSize →
      (ticketSize < ticketBytes.length →
        SignedTicket.construct ticketSize sig ticketBytes =
          .error ("Ticket is too big by " ++ toString (ticketBytes.length - ticketSize) ++
            " elements.")) ∧
      (ticketBytes.length ≤ ticketSize →
        (SignedTicket.construct ticketSize sig ticketBytes).map List.length =
          .ok (sigSize + ticketSize)) := by
  intro sigSize ticketSize sig ticketBytes hsig
  subst hsig
  constructor
  · intro hgt
    unfold SignedTicket.construct
    rw [if_neg (by omega), if_neg (by omega)]
  · intro hle
    unfold SignedTicket.construct
    by_cases heq : ticketBytes.length = ticketSize
    · rw [if_pos heq]
      simp only [Except.map]
      rw [List.length_append, heq]
    · rw [if_neg heq, if_pos (by omega)]
      simp only [Except.map]
      simp only [List.length_append, List.length_replicate]
      congr 1
      omega

/-- Witness for C6: a three-byte ticket against width two faults, and a
one-byte ticket against width two yields a four-byte signed ticket for a
two-byte signature. -/
theorem signedTicket_size_and_too_large_witness :
    SignedTicket.construct 2 [9, 9] [1, 2, 3] =
      .error ("Ticket is too big by " ++ toString (1 : Nat) ++ " elements.") ∧
    (SignedTicket.construct 2 [9, 9] [1]).map List.length = .ok (2 + 2) :=
  ⟨(signedTicket_size_and_too_large 2 2 [9, 9] [1, 2, 3] rfl).1 (by decide),
   (signedTicket_size_and_too_large 2 2 [9, 9] [1] rfl).2 (by decide)⟩
